import Mathlib

/-!
Shallow embedding of the attendance-eligibility and late-status engine of
Madina-Attend (source: the attendance-logic module, first/authoritative
revision). Instants are modelled after the time-zone conversion step: an
`EasternDate` carries the Eastern-local day-of-week and wall-clock hour and
minute exactly as the source reads them off the converted `Date` object
(`getDay`, `getHours`, `getMinutes`). Human-readable reason strings are
abstracted to their rejection categories; everything else follows the
source line by line.
-/

/-- Student enrollment category, source `ClassType`. -/
inductive ClassType
  | weekend
  | weekday
  | both
deriving DecidableEq

/-- Day classification of an instant ("weekend" | "weekday"). -/
inductive DayType
  | weekend
  | weekday
deriving DecidableEq

/-- Source `ClassSchedule`. `start` and `endTime` hold the (hour, minute)
pair denoted by the source's "HH:MM" strings (`end` is a Lean keyword). -/
structure ClassSchedule where
  start : Int × Int
  endTime : Int × Int
  lateThresholdMinutes : Int
  earlyLoginMinutes : Int
deriving DecidableEq

/-- Source `CLASS_SCHEDULES`: weekend 12:00-13:30, weekday 17:30-19:30,
late threshold 15 minutes, early login 60 minutes. -/
def CLASS_SCHEDULES : DayType → ClassSchedule
  | DayType.weekend => ⟨(12, 0), (13, 30), 15, 60⟩
  | DayType.weekday => ⟨(17, 30), (19, 30), 15, 60⟩

/-- Source `timeToMinutes`: minutes since midnight of an "HH:MM" time. -/
def timeToMinutes (t : Int × Int) : Int :=
  t.1 * 60 + t.2

/-- An instant already resolved to Eastern civil time (the output of the
source's `getEasternTime`): day-of-week (0 = Sunday .. 6 = Saturday, as
returned by `getDay`) plus wall-clock hours and minutes. -/
structure EasternDate where
  day : Nat
  hours : Int
  minutes : Int
deriving DecidableEq

/-- Source `dateToMinutes`: `getHours() * 60 + getMinutes()`. -/
def dateToMinutes (date : EasternDate) : Int :=
  date.hours * 60 + date.minutes

/-- Source `determineClassType` restricted to its day-of-week core: the
time-zone conversion it performs is the identity on an already-resolved
`EasternDate`. Saturday/Sunday map to weekend, all other days to weekday. -/
def determineClassType (date : EasternDate) : DayType :=
  if date.day == 0 || date.day == 6 then DayType.weekend else DayType.weekday

/-- Source `canAttendClass`. -/
def canAttendClass (studentClassType : ClassType) (sessionClassType : DayType) : Bool :=
  if studentClassType = ClassType.both then
    true
  else
    studentClassType = (match sessionClassType with
      | DayType.weekend => ClassType.weekend
      | DayType.weekday => ClassType.weekday)

/-- Category of the human-readable `reason` string of a rejection. -/
inductive RejectReason
  | wrong_day
  | too_early
  | class_ended
deriving DecidableEq

/-- The admitted statuses ("on_time" | "late"). -/
inductive LoginStatus
  | on_time
  | late
deriving DecidableEq

/-- Source `LoginValidationResult`; optional fields become `Option`, the
reason string its category. -/
structure LoginValidationResult where
  allowed : Bool
  reason : Option RejectReason
  status : Option LoginStatus
  dayType : DayType
  minutesLate : Option Int
  easternTime : EasternDate
deriving DecidableEq

/-- Source `validateLogin`, from the point where the Eastern time has been
resolved (`easternTime` is the converted instant). Mirrors the source's
if-chain: wrong day, too early, class ended, late, on time. -/
def validateLogin (studentClassType : ClassType) (easternTime : EasternDate) :
    LoginValidationResult :=
  let dayOfWeek := easternTime.day
  let isWeekend := dayOfWeek == 0 || dayOfWeek == 6
  let currentDayType : DayType := if isWeekend then DayType.weekend else DayType.weekday
  let canAttend := canAttendClass studentClassType currentDayType
  if !canAttend then
    { allowed := false, reason := some RejectReason.wrong_day, status := none,
      dayType := currentDayType, minutesLate := none, easternTime := easternTime }
  else
    let schedule := CLASS_SCHEDULES currentDayType
    let currentMinutes := dateToMinutes easternTime
    let classStartMinutes := timeToMinutes schedule.start
    let classEndMinutes := timeToMinutes schedule.endTime
    let earlyLoginMinutes := classStartMinutes - schedule.earlyLoginMinutes
    let lateThresholdMinutes := classStartMinutes + schedule.lateThresholdMinutes
    if currentMinutes < earlyLoginMinutes then
      { allowed := false, reason := some RejectReason.too_early, status := none,
        dayType := currentDayType, minutesLate := none, easternTime := easternTime }
    else if currentMinutes > classEndMinutes then
      { allowed := false, reason := some RejectReason.class_ended, status := none,
        dayType := currentDayType, minutesLate := none, easternTime := easternTime }
    else if currentMinutes > lateThresholdMinutes then
      { allowed := true, reason := none, status := some LoginStatus.late,
        dayType := currentDayType, minutesLate := some (currentMinutes - classStartMinutes),
        easternTime := easternTime }
    else
      { allowed := true, reason := none, status := some LoginStatus.on_time,
        dayType := currentDayType, minutesLate := some 0, easternTime := easternTime }

/-- Return shape of the source's `calculateLateStatus` (`null` becomes
`none`). -/
structure LateStatus where
  isLate : Bool
  lateMinutes : Option Int
deriving DecidableEq

/-- Source `calculateLateStatus`, from the point where the Eastern time
has been resolved. -/
def calculateLateStatus (checkInTime : EasternDate) (classType : DayType) : LateStatus :=
  let schedule := CLASS_SCHEDULES classType
  let checkInMinutes := dateToMinutes checkInTime
  let startMinutes := timeToMinutes schedule.start
  let lateThresholdMinutes := startMinutes + schedule.lateThresholdMinutes
  if checkInMinutes > lateThresholdMinutes then
    { isLate := true, lateMinutes := some (checkInMinutes - startMinutes) }
  else
    { isLate := false, lateMinutes := none }

/-- A JavaScript `Date` viewed in the civil calendar of the zone in which
the week-number arithmetic runs: an integer day index plus milliseconds
since that day's midnight. `getTime`/`setHours(0,0,0,0)` act on this pair
exactly as the source uses them. -/
structure JSDate where
  day : Int
  msOfDay : Int
deriving DecidableEq

/-- Milliseconds per day: the source's `1000 * 60 * 60 * 24`. -/
def msPerDay : Int := 1000 * 60 * 60 * 24

/-- `setHours(0, 0, 0, 0)`: truncate to civil midnight. -/
def setHoursZero (d : JSDate) : JSDate :=
  ⟨d.day, 0⟩

/-- `getTime()`: milliseconds on the linear timeline. -/
def getTime (d : JSDate) : Int :=
  d.day * msPerDay + d.msOfDay

/-- Source `calculateWeekNumber`: truncate both dates to midnight, take the
millisecond difference, floor to days, floor-divide by 7, add 1, and clamp
non-positive results to 1. `systemStartDate` is the day index denoted by
the configured "YYYY-MM-DD" epoch string (time-of-day 0). `Math.floor` of
a ratio is `Int.fdiv`. -/
def calculateWeekNumber (date : JSDate) (systemStartDate : Int) : Int :=
  let startDate := setHoursZero ⟨systemStartDate, 0⟩
  let currentDate := setHoursZero date
  let diffMs := getTime currentDate - getTime startDate
  let diffDays := Int.fdiv diffMs msPerDay
  let weekNumber := Int.fdiv diffDays 7 + 1
  if weekNumber > 0 then weekNumber else 1

/-- Source `getWeekDateRange`: start of week `n` is the epoch shifted by
`(n - 1) * 7` days (`setDate` arithmetic), end is 6 days later; the
formatted "YYYY-MM-DD" strings are modelled by the day indices they name. -/
def getWeekDateRange (weekNumber : Int) (systemStartDate : Int) : Int × Int :=
  let startDate : JSDate := ⟨systemStartDate, 0⟩
  let weekStartDate : JSDate := ⟨startDate.day + (weekNumber - 1) * 7, startDate.msOfDay⟩
  let weekEndDate : JSDate := ⟨weekStartDate.day + 6, weekStartDate.msOfDay⟩
  (weekStartDate.day, weekEndDate.day)

/-- The week-number formula as the spec words it: floor of the day
difference of the civil midnights over 7, plus 1, clamped to a minimum
of 1. Stated independently of the code for the refinement comparison. -/
def weekNumberSpec (date : JSDate) (systemStartDate : Int) : Int :=
  max 1 (Int.fdiv (date.day - systemStartDate) 7 + 1)

/-- `startMin` of the spec: class start in minutes since local midnight. -/
def startMin (dt : DayType) : Int :=
  timeToMinutes (CLASS_SCHEDULES dt).start

/-- `endMin` of the spec: class end in minutes since local midnight. -/
def endMin (dt : DayType) : Int :=
  timeToMinutes (CLASS_SCHEDULES dt).endTime

/-- `earlyOpenMin` of the spec: `startMin - earlyLoginMinutes`. -/
def earlyOpenMin (dt : DayType) : Int :=
  startMin dt - (CLASS_SCHEDULES dt).earlyLoginMinutes

/-- `lateThresholdMin` of the spec: `startMin + lateThresholdMinutes`. -/
def lateThresholdMin (dt : DayType) : Int :=
  startMin dt + (CLASS_SCHEDULES dt).lateThresholdMinutes

/-- When the student cannot attend today's class, `validateLogin` returns
the wrong-day rejection carrying the observed day-type. -/
theorem validateLogin_of_not_canAttend (ct : ClassType) (e : EasternDate)
    (h : canAttendClass ct (determineClassType e) = false) :
    validateLogin ct e =
      { allowed := false, reason := some RejectReason.wrong_day, status := none,
        dayType := determineClassType e, minutesLate := none, easternTime := e } := by
  obtain ⟨d, hh, mm⟩ := e
  simp only [validateLogin, determineClassType] at h ⊢
  by_cases hw : (d == 0 || d == 6) = true <;> simp [hw] at h ⊢ <;> simp [h]

/-- When the student can attend today's class, `validateLogin` is the
three-way comparison of `nowMin` against `earlyOpenMin`, `endMin` and
`lateThresholdMin` of today's schedule. -/
theorem validateLogin_of_canAttend (ct : ClassType) (e : EasternDate)
    (h : canAttendClass ct (determineClassType e) = true) :
    validateLogin ct e =
      if dateToMinutes e < earlyOpenMin (determineClassType e) then
        { allowed := false, reason := some RejectReason.too_early, status := none,
          dayType := determineClassType e, minutesLate := none, easternTime := e }
      else if dateToMinutes e > endMin (determineClassType e) then
        { allowed := false, reason := some RejectReason.class_ended, status := none,
          dayType := determineClassType e, minutesLate := none, easternTime := e }
      else if dateToMinutes e > lateThresholdMin (determineClassType e) then
        { allowed := true, reason := none, status := some LoginStatus.late,
          dayType := determineClassType e,
          minutesLate := some (dateToMinutes e - startMin (determineClassType e)),
          easternTime := e }
      else
        { allowed := true, reason := none, status := some LoginStatus.on_time,
          dayType := determineClassType e, minutesLate := some 0, easternTime := e } := by
  obtain ⟨d, hh, mm⟩ := e
  simp only [validateLogin, determineClassType, startMin, endMin, earlyOpenMin,
    lateThresholdMin] at h ⊢
  by_cases hw : (d == 0 || d == 6) = true <;>
    simp only [hw, Bool.false_eq_true, if_true, if_false, ite_true, ite_false] at h ⊢ <;>
    simp [h, CLASS_SCHEDULES, dateToMinutes, timeToMinutes]

/-- The three admission thresholds of each schedule are ordered:
`earlyOpenMin ≤ lateThresholdMin ≤ endMin`. -/
theorem thresholds_ordered (dt : DayType) :
    earlyOpenMin dt ≤ lateThresholdMin dt ∧ lateThresholdMin dt ≤ endMin dt := by
  cases dt <;> decide

/-- C1: a weekend-only or weekday-only student checking in on a day of the
other type is rejected with a wrong-day reason and the observed day-type;
a "both" student is never rejected with a wrong-day reason. -/
theorem c1_wrong_day (ct : ClassType) (e : EasternDate) :
    ((ct = ClassType.weekend ∧ determineClassType e = DayType.weekday) ∨
     (ct = ClassType.weekday ∧ determineClassType e = DayType.weekend) →
      (validateLogin ct e).allowed = false ∧
      (validateLogin ct e).reason = some RejectReason.wrong_day ∧
      (validateLogin ct e).dayType = determineClassType e) ∧
    (validateLogin ClassType.both e).reason ≠ some RejectReason.wrong_day := by
  obtain ⟨d, hh, mm⟩ := e
  by_cases hw : (d == 0 || d == 6) = true <;>
    cases ct <;>
      simp_all [validateLogin, determineClassType, canAttendClass, CLASS_SCHEDULES,
        dateToMinutes, timeToMinutes] <;>
      split_ifs <;> simp_all

theorem c1_wrong_day_witness :
    (validateLogin ClassType.weekend ⟨1, 12, 0⟩).allowed = false ∧
    (validateLogin ClassType.weekend ⟨1, 12, 0⟩).reason = some RejectReason.wrong_day ∧
    (validateLogin ClassType.weekend ⟨1, 12, 0⟩).dayType = determineClassType ⟨1, 12, 0⟩ :=
  (c1_wrong_day ClassType.weekend ⟨1, 12, 0⟩).1 (Or.inl ⟨rfl, by decide⟩)

/-- C2: on a day matching the class type the outcome is the piecewise
function of `nowMin = dateToMinutes e` with boundaries exactly at
`earlyOpenMin` (equality admitted), `lateThresholdMin` (equality on time)
and `endMin` (equality admitted): too_early iff `nowMin < earlyOpenMin`,
class_ended iff `nowMin > endMin`, late iff
`lateThresholdMin < nowMin <= endMin`, on_time iff
`earlyOpenMin <= nowMin <= lateThresholdMin` — so the ordered, disjoint
regions succeed each other exactly once as the instant increases. -/
theorem c2_piecewise_boundaries (ct : ClassType) (e : EasternDate)
    (h : canAttendClass ct (determineClassType e) = true) :
    ((validateLogin ct e).reason = some RejectReason.too_early ↔
      dateToMinutes e < earlyOpenMin (determineClassType e)) ∧
    ((validateLogin ct e).reason = some RejectReason.class_ended ↔
      dateToMinutes e > endMin (determineClassType e)) ∧
    ((validateLogin ct e).status = some LoginStatus.late ↔
      (lateThresholdMin (determineClassType e) < dateToMinutes e ∧
        dateToMinutes e ≤ endMin (determineClassType e))) ∧
    ((validateLogin ct e).status = some LoginStatus.on_time ↔
      (earlyOpenMin (determineClassType e) ≤ dateToMinutes e ∧
        dateToMinutes e ≤ lateThresholdMin (determineClassType e))) := by
  have ho := thresholds_ordered (determineClassType e)
  rw [validateLogin_of_canAttend ct e h]
  split_ifs <;> simp <;> omega

theorem c2_piecewise_boundaries_witness :
    canAttendClass ClassType.weekday (determineClassType ⟨1, 17, 50⟩) = true ∧
    ((validateLogin ClassType.weekday ⟨1, 17, 50⟩).status = some LoginStatus.late ↔
      (lateThresholdMin (determineClassType ⟨1, 17, 50⟩) < dateToMinutes ⟨1, 17, 50⟩ ∧
        dateToMinutes ⟨1, 17, 50⟩ ≤ endMin (determineClassType ⟨1, 17, 50⟩))) :=
  ⟨by decide, (c2_piecewise_boundaries ClassType.weekday ⟨1, 17, 50⟩ (by decide)).2.2.1⟩

/-- C3 counterexample: Monday 17:40 Eastern is an admitted weekday
check-in (on time), yet `minutesLate` is 0 while `nowMin - startMin` is
10, so `minutesLate` does not always equal `nowMin - startMin` on
admitted check-ins. -/
theorem c3_minutesLate_counterexample :
    (validateLogin ClassType.weekday ⟨1, 17, 40⟩).allowed = true ∧
    (validateLogin ClassType.weekday ⟨1, 17, 40⟩).minutesLate ≠
      some (dateToMinutes ⟨1, 17, 40⟩ - startMin DayType.weekday) := by
  decide

/-- C3 amended: on an admitted LATE check-in `minutesLate` equals
`nowMin - startMin` and is strictly increasing in the instant across late
check-ins of the same day-type; every admitted on-time check-in —
including the boundary instant `nowMin = lateThresholdMin` — has
`minutesLate = 0`. -/
theorem c3_minutesLate_amended (ct : ClassType) (e eLater : EasternDate)
    (h : canAttendClass ct (determineClassType e) = true) :
    ((validateLogin ct e).status = some LoginStatus.late →
      (validateLogin ct e).minutesLate =
        some (dateToMinutes e - startMin (determineClassType e))) ∧
    ((validateLogin ct e).status = some LoginStatus.on_time →
      (validateLogin ct e).minutesLate = some 0) ∧
    (dateToMinutes e = lateThresholdMin (determineClassType e) →
      (validateLogin ct e).status = some LoginStatus.on_time ∧
      (validateLogin ct e).minutesLate = some 0) ∧
    (determineClassType eLater = determineClassType e →
      (validateLogin ct e).status = some LoginStatus.late →
      (validateLogin ct eLater).status = some LoginStatus.late →
      dateToMinutes e < dateToMinutes eLater →
      ∃ m mLater, (validateLogin ct e).minutesLate = some m ∧
        (validateLogin ct eLater).minutesLate = some mLater ∧ m < mLater) := by
  have ho := thresholds_ordered (determineClassType e)
  have H := validateLogin_of_canAttend ct e h
  refine ⟨?_, ?_, ?_, ?_⟩
  · rw [H]; split_ifs <;> simp
  · rw [H]; split_ifs <;> simp
  · intro hb
    rw [H]
    split_ifs <;> first | omega | simp
  · intro hdt hl hl'
    have h' : canAttendClass ct (determineClassType eLater) = true := by rw [hdt]; exact h
    have H' := validateLogin_of_canAttend ct eLater h'
    rw [H] at hl ⊢
    rw [H'] at hl' ⊢
    rw [hdt] at hl' ⊢
    intro hlt
    split_ifs at hl hl' ⊢ <;> simp_all

theorem c3_minutesLate_amended_witness :
    canAttendClass ClassType.weekday (determineClassType ⟨1, 17, 50⟩) = true ∧
    ((validateLogin ClassType.weekday ⟨1, 17, 50⟩).status = some LoginStatus.late →
      (validateLogin ClassType.weekday ⟨1, 17, 50⟩).minutesLate =
        some (dateToMinutes ⟨1, 17, 50⟩ - startMin (determineClassType ⟨1, 17, 50⟩))) :=
  ⟨by decide,
    (c3_minutesLate_amended ClassType.weekday ⟨1, 17, 50⟩ ⟨1, 18, 0⟩ (by decide)).1⟩

/-- Closed form of `calculateWeekNumber`: the millisecond detour of the
source collapses to floor-dividing the day difference by 7. -/
theorem calculateWeekNumber_closed_form (date : JSDate) (systemStartDate : Int) :
    calculateWeekNumber date systemStartDate =
      max 1 ((date.day - systemStartDate) / 7 + 1) := by
  simp only [calculateWeekNumber, setHoursZero, getTime, msPerDay]
  rw [Int.fdiv_eq_ediv _ (by norm_num), Int.fdiv_eq_ediv _ (by norm_num)]
  split_ifs <;> omega

/-- C4: `calculateWeekNumber` equals the spec formula — floor of the
civil-midnight day difference over 7, plus 1, clamped to a minimum of 1 —
every date strictly before the epoch maps to week 1, and the time-of-day
component of the date never affects the result. -/
theorem c4_weekNumber_formula (date : JSDate) (systemStartDate : Int) :
    calculateWeekNumber date systemStartDate = weekNumberSpec date systemStartDate ∧
    (date.day < systemStartDate → calculateWeekNumber date systemStartDate = 1) ∧
    (∀ ms ms' : Int, calculateWeekNumber ⟨date.day, ms⟩ systemStartDate =
      calculateWeekNumber ⟨date.day, ms'⟩ systemStartDate) := by
  refine ⟨?_, ?_, ?_⟩
  · rw [calculateWeekNumber_closed_form]
    simp only [weekNumberSpec]
    rw [Int.fdiv_eq_ediv _ (by norm_num)]
  · intro hb
    rw [calculateWeekNumber_closed_form]
    omega
  · intro ms ms'
    rw [calculateWeekNumber_closed_form, calculateWeekNumber_closed_form]

theorem c4_weekNumber_formula_witness :
    JSDate.day ⟨90, 5⟩ < 93 ∧ calculateWeekNumber ⟨90, 5⟩ 93 = 1 :=
  ⟨by decide, (c4_weekNumber_formula ⟨90, 5⟩ 93).2.1 (by decide)⟩

/-- C5: for a fixed epoch, `calculateWeekNumber` is monotone non-decreasing
in the date, and the epoch date itself maps to week 1 whatever its
time-of-day component. -/
theorem c5_weekNumber_monotone (d dLater : JSDate) (systemStartDate : Int)
    (h : d.day ≤ dLater.day) :
    calculateWeekNumber d systemStartDate ≤ calculateWeekNumber dLater systemStartDate ∧
    (∀ ms : Int, calculateWeekNumber ⟨systemStartDate, ms⟩ systemStartDate = 1) := by
  constructor
  · rw [calculateWeekNumber_closed_form, calculateWeekNumber_closed_form]
    omega
  · intro ms
    rw [calculateWeekNumber_closed_form]
    simp

theorem c5_weekNumber_monotone_witness :
    JSDate.day ⟨93, 0⟩ ≤ JSDate.day ⟨100, 7⟩ ∧
    calculateWeekNumber ⟨93, 0⟩ 93 ≤ calculateWeekNumber ⟨100, 7⟩ 93 :=
  ⟨by decide, (c5_weekNumber_monotone ⟨93, 0⟩ ⟨100, 7⟩ 93 (by decide)).1⟩

/-- C6: for a week number `n ≥ 1`, `getWeekDateRange` starts the week at
the epoch plus `7 * (n - 1)` days, ends it 6 days later, and
`calculateWeekNumber` maps that start date back to week `n`. -/
theorem c6_weekDateRange (n : Int) (systemStartDate : Int) (h : 1 ≤ n) :
    (getWeekDateRange n systemStartDate).1 = systemStartDate + 7 * (n - 1) ∧
    (getWeekDateRange n systemStartDate).2 = (getWeekDateRange n systemStartDate).1 + 6 ∧
    calculateWeekNumber ⟨(getWeekDateRange n systemStartDate).1, 0⟩ systemStartDate = n := by
  refine ⟨by simp [getWeekDateRange]; ring, rfl, ?_⟩
  rw [calculateWeekNumber_closed_form]
  simp only [getWeekDateRange]
  omega

theorem c6_weekDateRange_witness :
    (1 : Int) ≤ 3 ∧ (getWeekDateRange 3 93).1 = 93 + 7 * (3 - 1) ∧
    calculateWeekNumber ⟨(getWeekDateRange 3 93).1, 0⟩ 93 = 3 :=
  ⟨by decide, (c6_weekDateRange 3 93 (by decide)).1, (c6_weekDateRange 3 93 (by decide)).2.2⟩

/-- C7: `validateLogin` is a total function into structured results — on
every input it either admits (a status is present) or rejects with a
structured reason; rejection and admission are the only outcomes and a
rejection always carries a reason. -/
theorem c7_total_structured (ct : ClassType) (e : EasternDate) :
    ((validateLogin ct e).allowed = false ↔ ((validateLogin ct e).reason).isSome = true) ∧
    ((validateLogin ct e).allowed = true ↔ ((validateLogin ct e).status).isSome = true) := by
  by_cases h : canAttendClass ct (determineClassType e) = true
  · rw [validateLogin_of_canAttend ct e h]
    split_ifs <;> simp
  · rw [validateLogin_of_not_canAttend ct e (by simpa using h)]
    simp

/-- C8: under the production schedule table, a weekday student on Monday
17:50 Eastern is admitted late with 20 minutes of lateness, and a weekend
student on Saturday 11:30 Eastern is admitted on time with 0 minutes. -/
theorem c8_production_scenarios :
    CLASS_SCHEDULES DayType.weekday = ⟨(17, 30), (19, 30), 15, 60⟩ ∧
    CLASS_SCHEDULES DayType.weekend = ⟨(12, 0), (13, 30), 15, 60⟩ ∧
    validateLogin ClassType.weekday ⟨1, 17, 50⟩ =
      { allowed := true, reason := none, status := some LoginStatus.late,
        dayType := DayType.weekday, minutesLate := some 20, easternTime := ⟨1, 17, 50⟩ } ∧
    validateLogin ClassType.weekend ⟨6, 11, 30⟩ =
      { allowed := true, reason := none, status := some LoginStatus.on_time,
        dayType := DayType.weekend, minutesLate := some 0, easternTime := ⟨6, 11, 30⟩ } := by
  decide

/-- C9: shape invariant of every produced `LoginValidationResult` — a
rejection carries a reason and neither status nor minutesLate; an
admission carries a status and no reason; on_time forces
`minutesLate = 0`; late forces `minutesLate` above the schedule's late
threshold; and the observed day-type and the resolved Eastern time are
always present. -/
theorem c9_result_shape (ct : ClassType) (e : EasternDate) :
    ((validateLogin ct e).allowed = false →
      (∃ r, (validateLogin ct e).reason = some r) ∧
      (validateLogin ct e).status = none ∧ (validateLogin ct e).minutesLate = none) ∧
    ((validateLogin ct e).allowed = true →
      (∃ s, (validateLogin ct e).status = some s) ∧ (validateLogin ct e).reason = none) ∧
    ((validateLogin ct e).status = some LoginStatus.on_time →
      (validateLogin ct e).minutesLate = some 0) ∧
    ((validateLogin ct e).status = some LoginStatus.late →
      ∃ m, (validateLogin ct e).minutesLate = some m ∧
        (CLASS_SCHEDULES ((validateLogin ct e).dayType)).lateThresholdMinutes < m) ∧
    (validateLogin ct e).dayType = determineClassType e ∧
    (validateLogin ct e).easternTime = e := by
  by_cases h : canAttendClass ct (determineClassType e) = true
  · rw [validateLogin_of_canAttend ct e h]
    split_ifs <;> simp_all [lateThresholdMin, startMin, endMin, earlyOpenMin]
    omega
  · rw [validateLogin_of_not_canAttend ct e (by simpa using h)]
    simp

theorem c9_result_shape_witness :
    (validateLogin ClassType.weekday ⟨1, 17, 50⟩).status = some LoginStatus.late ∧
    (∃ m, (validateLogin ClassType.weekday ⟨1, 17, 50⟩).minutesLate = some m ∧
      (CLASS_SCHEDULES ((validateLogin ClassType.weekday ⟨1, 17, 50⟩).dayType)).lateThresholdMinutes < m) :=
  ⟨by decide, (c9_result_shape ClassType.weekday ⟨1, 17, 50⟩).2.2.2.1 (by decide)⟩

/-- C10: on every admitted check-in, the standalone `calculateLateStatus`
run on the same instant and the observed day-type agrees with
`validateLogin`: it reports late exactly when the status is late, and
then its `lateMinutes` equals `minutesLate`. -/
theorem c10_lateStatus_agreement (ct : ClassType) (e : EasternDate)
    (h : (validateLogin ct e).allowed = true) :
    ((calculateLateStatus e ((validateLogin ct e).dayType)).isLate = true ↔
      (validateLogin ct e).status = some LoginStatus.late) ∧
    ((validateLogin ct e).status = some LoginStatus.late →
      (calculateLateStatus e ((validateLogin ct e).dayType)).lateMinutes =
        (validateLogin ct e).minutesLate) := by
  have hca : canAttendClass ct (determineClassType e) = true := by
    by_contra hn
    rw [validateLogin_of_not_canAttend ct e (by simpa using hn)] at h
    simp at h
  have H := validateLogin_of_canAttend ct e hca
  rw [H] at h ⊢
  simp only [calculateLateStatus]
  split_ifs at h ⊢ <;>
    simp_all [lateThresholdMin, startMin, endMin, earlyOpenMin]

theorem c10_lateStatus_agreement_witness :
    (validateLogin ClassType.weekday ⟨1, 17, 50⟩).allowed = true ∧
    ((calculateLateStatus ⟨1, 17, 50⟩ ((validateLogin ClassType.weekday ⟨1, 17, 50⟩).dayType)).isLate = true ↔
      (validateLogin ClassType.weekday ⟨1, 17, 50⟩).status = some LoginStatus.late) :=
  ⟨by decide, (c10_lateStatus_agreement ClassType.weekday ⟨1, 17, 50⟩ (by decide)).1⟩
